import Mathlib

/-!
Shallow embedding of `src/packages/backend/src/agents/sets/spatial_calculator.py`
(the Venn-diagram spatial layout calculator), together with theorems checking the
specification's claims about it.

Modelling conventions:
* Python floats are modelled as exact real numbers (`ℝ`); float literals such as
  `0.866`, `0.75`, `1.15` are the corresponding rational constants.
* `numpy` 3-vectors `[x, y, 0]` always carry `z = 0` in the source, so points are
  modelled as pairs `Pt = ℝ × ℝ`; `np.linalg.norm` becomes `npNorm`.
* Python `int(x)` (truncation toward zero) is `pyInt`.
* Python dictionaries built by inserting distinct keys in a fixed order are
  modelled as association lists (`List (α × Pt)`), preserving insertion order.
* `list.sort(key=lambda x: x[0])` is a stable sort by the first component; it is
  modelled by `List.insertionSort` (also stable), which therefore produces the
  same list.
* The `verbose` printing flag only produces output and is dropped.
-/

noncomputable section

namespace VennSpatialCalculator

open Real

/-- Points: the source uses numpy 3-vectors with z identically 0. -/
abbrev Pt : Type := ℝ × ℝ

/-- `np.linalg.norm` of a 2-d vector. -/
def npNorm (v : Pt) : ℝ := Real.sqrt (v.1 ^ 2 + v.2 ^ 2)

/-- Python `int(x)`: truncation toward zero. -/
def pyInt (x : ℝ) : ℤ := if x < 0 then -⌊-x⌋ else ⌊x⌋

/-- Physics constant `PACKING_EFFICIENCY = 0.75`. -/
def PACKING_EFFICIENCY : ℝ := 0.75

/-- Physics constant `FONT_TO_MANIM_CONVERSION = 95.0`. -/
def FONT_TO_MANIM_CONVERSION : ℝ := 95

/-- Physics constant `SAFETY_MARGIN = 1.15`. -/
def SAFETY_MARGIN : ℝ := 1.15

/-- One row of `TIER_THRESHOLDS`: `{'radius': …, 'font': …, 'padding': …}`. -/
structure TierParams where
  radius : ℝ
  font : ℤ
  padding : ℝ

/-- `TIER_THRESHOLDS`: thresholds with `none` standing for `float('inf')`. -/
def TIER_THRESHOLDS : List (Option ℕ × String × TierParams) :=
  [(some 15, "comfortable", ⟨2.2, 38, 0.35⟩),
   (some 25, "moderate",    ⟨2.0, 32, 0.28⟩),
   (some 40, "tight",       ⟨1.8, 28, 0.22⟩),
   (some 60, "very_tight",  ⟨1.5, 24, 0.18⟩),
   (none,    "warning",     ⟨1.2, 20, 0.15⟩)]

/-- The loop body of `_select_tier`: first row whose threshold is not exceeded
(`union_size <= threshold`, where `none`/infinity compares greater than any size);
the fallback after the loop is `('warning', TIER_THRESHOLDS[-1][2])`. -/
def select_tier_from (union_size : ℕ) : List (Option ℕ × String × TierParams) → String × TierParams
  | [] => ("warning", ⟨1.2, 20, 0.15⟩)
  | (t, tier, params) :: rest =>
      match t with
      | none => (tier, params)
      | some b =>
          if union_size ≤ b then (tier, params) else select_tier_from union_size rest

/-- `VennSpatialCalculator._select_tier`. -/
def select_tier (union_size : ℕ) : String × TierParams :=
  select_tier_from union_size TIER_THRESHOLDS

/-- `VennSpatialCalculator._calculate_lens_area`: area of the lens-shaped
intersection of two radius-`R` circles at center separation `d`.  The
`try/except` in the source cannot fire over exact reals (`acos` and `sqrt` are
total in this embedding), so only the three main branches remain. -/
def calculate_lens_area (R d : ℝ) : ℝ :=
  if 2 * R ≤ d then 0
  else if d ≤ 0 then π * R ^ 2
  else max 0 (2 * R ^ 2 * Real.arccos (d / (2 * R)) - d / 2 * Real.sqrt (4 * R ^ 2 - d ^ 2))

/-- The unclamped intersection formula `2R²·arccos(d/2R) − (d/2)·√(4R² − d²)`
from `_calculate_lens_area` (its middle branch before the `max 0` clamp). -/
def lensFormula (R d : ℝ) : ℝ :=
  2 * R ^ 2 * Real.arccos (d / (2 * R)) - d / 2 * Real.sqrt (4 * R ^ 2 - d ^ 2)

/-- `VennSpatialCalculator._calculate_lens_dimensions`: `(width, height)`. -/
def calculate_lens_dimensions (R d : ℝ) : ℝ × ℝ :=
  if 2 * R ≤ d then (0, 0)
  else (2 * R - d, 2 * Real.sqrt (R ^ 2 - (d / 2) ^ 2))

/-- The bisection loop of `_solve_lens_separation`, with the fuel counting the
remaining iterations.  On the final iteration the Python loop computes `d_mid`,
fails the tolerance test, updates the bracket, exits, and returns that `d_mid`;
hence the `n = 0` early return.  The fuel-0 case is unreachable for a positive
iteration budget. -/
def solve_loop (R required_area tolerance : ℝ) : ℕ → ℝ → ℝ → ℝ
  | 0, d_min, d_max => (d_min + d_max) / 2
  | n + 1, d_min, d_max =>
      let d_mid := (d_min + d_max) / 2
      let area_mid := calculate_lens_area R d_mid
      if |area_mid - required_area| < tolerance then d_mid
      else if n = 0 then d_mid
      else if required_area < area_mid then solve_loop R required_area tolerance n d_mid d_max
      else solve_loop R required_area tolerance n d_min d_mid

/-- `VennSpatialCalculator._solve_lens_separation`. -/
def solve_lens_separation (R required_area tolerance : ℝ) (max_iterations : ℕ) : ℝ :=
  let d_min : ℝ := 0
  let d_max := 2 * R
  let max_possible := π * R ^ 2
  if max_possible * 0.95 < required_area then d_min * 1.1
  else solve_loop R required_area tolerance max_iterations d_min d_max

/-- Result record of `_calculate_lens_parameters`. -/
structure LensParams where
  font_size : ℤ
  element_size : ℝ
  padding : ℝ
  circle_separation : ℝ
  area : ℝ
  width : ℝ
  height : ℝ

/-- `VennSpatialCalculator._calculate_lens_parameters`. -/
def calculate_lens_parameters (intersection_size : ℕ) (base_radius : ℝ) (base_font : ℤ)
    (base_padding : ℝ) : LensParams :=
  let element_size := (base_font : ℝ) / FONT_TO_MANIM_CONVERSION
  let element_footprint := (element_size + base_padding) ^ 2
  let required_area :=
    if 0 < intersection_size then
      (intersection_size : ℝ) * element_footprint / PACKING_EFFICIENCY * SAFETY_MARGIN
    else 0.1
  let circle_sep := solve_lens_separation base_radius required_area 0.005 100
  let actual_area := calculate_lens_area base_radius circle_sep
  let dims := calculate_lens_dimensions base_radius circle_sep
  ⟨base_font, element_size, base_padding, circle_sep, actual_area, dims.1, dims.2⟩

/-- Result record of `_calculate_crescent_parameters`; `radii` is the dictionary
`{'a_only': _, 'b_only': _}` as a pair. -/
structure CrescentParams where
  font_size : ℤ
  element_size : ℝ
  padding : ℝ
  radii : ℝ × ℝ

/-- The closure `calc_radius` inside `_calculate_crescent_parameters` (reading
whatever `element_footprint` currently holds). -/
def calc_radius (element_footprint : ℝ) (n_elements : ℕ) : ℝ :=
  if n_elements = 0 then 0.1
  else Real.sqrt ((n_elements : ℝ) * element_footprint / PACKING_EFFICIENCY / π)

/-- `VennSpatialCalculator._calculate_crescent_parameters`. -/
def calculate_crescent_parameters (a_only_size b_only_size : ℕ) (base_radius : ℝ)
    (base_font : ℤ) (base_padding : ℝ) : CrescentParams :=
  let element_size := (base_font : ℝ) / FONT_TO_MANIM_CONVERSION
  let element_footprint := (element_size + base_padding) ^ 2
  let r_a := calc_radius element_footprint a_only_size
  let r_b := calc_radius element_footprint b_only_size
  let max_crescent_radius := base_radius * 0.65
  if max_crescent_radius < max r_a r_b then
    let scale_factor := max_crescent_radius / max r_a r_b * 0.9
    let crescent_font := pyInt ((base_font : ℝ) * scale_factor)
    let crescent_padding := base_padding * scale_factor
    let crescent_element_size := (crescent_font : ℝ) / FONT_TO_MANIM_CONVERSION
    let crescent_element_footprint := (crescent_element_size + crescent_padding) ^ 2
    ⟨crescent_font, crescent_element_size, crescent_padding,
      (calc_radius crescent_element_footprint a_only_size,
       calc_radius crescent_element_footprint b_only_size)⟩
  else ⟨base_font, element_size, base_padding, (r_a, r_b)⟩

/-- The `VennLayout` dataclass. -/
structure VennLayout where
  union_size : ℕ
  intersection_size : ℕ
  a_only_size : ℕ
  b_only_size : ℕ
  circle_radius : ℝ
  circle_separation : ℝ
  circle_a_center : Pt
  circle_b_center : Pt
  tier : String
  lens_font_size : ℤ
  lens_element_size : ℝ
  lens_padding : ℝ
  lens_area : ℝ
  lens_width : ℝ
  lens_height : ℝ
  crescent_font_size : ℤ
  crescent_element_size : ℝ
  crescent_padding : ℝ
  crescent_radii : ℝ × ℝ
  is_valid : Bool
  warnings : List String

variable {α : Type} [LinearOrder α]

/-- `VennSpatialCalculator.calculate_layout`. -/
def calculate_layout (set_a set_b : Finset α) : VennLayout :=
  let union := set_a ∪ set_b
  let intersection := set_a ∩ set_b
  let a_only := set_a \ set_b
  let b_only := set_b \ set_a
  let tier_sel := select_tier union.card
  let lens_params := calculate_lens_parameters intersection.card
    tier_sel.2.radius tier_sel.2.font tier_sel.2.padding
  let crescent_params := calculate_crescent_parameters a_only.card b_only.card
    tier_sel.2.radius tier_sel.2.font tier_sel.2.padding
  let circle_sep := lens_params.circle_separation
  { union_size := union.card
    intersection_size := intersection.card
    a_only_size := a_only.card
    b_only_size := b_only.card
    circle_radius := tier_sel.2.radius
    circle_separation := circle_sep
    circle_a_center := (-(circle_sep / 2), 0)
    circle_b_center := (circle_sep / 2, 0)
    tier := tier_sel.1
    lens_font_size := lens_params.font_size
    lens_element_size := lens_params.element_size
    lens_padding := lens_params.padding
    lens_area := lens_params.area
    lens_width := lens_params.width
    lens_height := lens_params.height
    crescent_font_size := crescent_params.font_size
    crescent_element_size := crescent_params.element_size
    crescent_padding := crescent_params.padding
    crescent_radii := crescent_params.radii
    is_valid := true
    warnings :=
      if lens_params.font_size ≠ crescent_params.font_size
      then ["Different font sizes"] else [] }

/-- `range(-n, n+1)` as a list of integers (for the nonnegative `n` produced by
the packers). -/
def intRange (n : ℤ) : List ℤ :=
  (List.range (2 * n + 1).toNat).map (fun (i : ℕ) => (i : ℤ) - n)

/-- One hexagonal-lattice offset: `x = col*sx` (+ `sx/2` on odd rows),
`y = row*sy`. -/
def hexPoint (sx sy : ℝ) (row col : ℤ) : Pt :=
  ((col : ℝ) * sx + (if row % 2 ≠ 0 then sx / 2 else 0), (row : ℝ) * sy)

/-- The `(dist, pos)` candidate list built by `_hexagonal_pack` before sorting. -/
def hexCandidates (center : Pt) (radius elem_size padding : ℝ) : List (ℝ × Pt) :=
  let spacing := elem_size + padding
  let hex_spacing_x := spacing
  let hex_spacing_y := spacing * 0.866
  let cols := ⌊2 * radius / hex_spacing_x⌋ + 1
  let rows := ⌊2 * radius / hex_spacing_y⌋ + 1
  (intRange rows).flatMap (fun row =>
    (intRange cols).filterMap (fun col =>
      let pos := center + hexPoint hex_spacing_x hex_spacing_y row col
      let dist := npNorm (pos - center)
      if dist ≤ radius then some (dist, pos) else none))

/-- The `(dist, pos)` candidate list built by `_elliptical_pack` before sorting. -/
def ellipseCandidates (center : Pt) (width height elem_size padding : ℝ) : List (ℝ × Pt) :=
  let spacing := elem_size + padding
  let hex_spacing_x := spacing
  let hex_spacing_y := spacing * 0.866
  let cols := ⌊width / hex_spacing_x⌋ + 2
  let rows := ⌊height / hex_spacing_y⌋ + 2
  (intRange rows).flatMap (fun row =>
    (intRange cols).filterMap (fun col =>
      let q := hexPoint hex_spacing_x hex_spacing_y row col
      let pos := center + q
      let norm_x := if 0 < width then 2 * q.1 / width else 0
      let norm_y := if 0 < height then 2 * q.2 / height else 0
      if norm_x ^ 2 + norm_y ^ 2 ≤ 1 then some (npNorm (pos - center), pos) else none))

/-- The assignment loop shared by both packers: element `i` gets the `i`-th
sorted candidate position, or the region center once candidates run out. -/
def assign : List α → List Pt → Pt → List (α × Pt)
  | [], _, _ => []
  | a :: as_, [], center => (a, center) :: assign as_ [] center
  | a :: as_, q :: qs, center => (a, q) :: assign as_ qs center

/-- Sorting `positions_list.sort(key=lambda x: x[0])`: stable sort on the
distance component. -/
def sortByDist (l : List (ℝ × Pt)) : List (ℝ × Pt) :=
  List.insertionSort (fun a b => a.1 ≤ b.1) l

/-- `VennSpatialCalculator._hexagonal_pack`. -/
def hexagonal_pack (elements : List α) (center : Pt) (radius elem_size padding : ℝ) :
    List (α × Pt) :=
  assign elements ((sortByDist (hexCandidates center radius elem_size padding)).map Prod.snd)
    center

/-- `VennSpatialCalculator._elliptical_pack`. -/
def elliptical_pack (elements : List α) (center : Pt) (width height elem_size padding : ℝ) :
    List (α × Pt) :=
  assign elements
    ((sortByDist (ellipseCandidates center width height elem_size padding)).map Prod.snd) center

/-- `VennSpatialCalculator.pack_elements`.  The `elements` argument is part of
the interface but, as in the source, is never consulted: regions are recomputed
from the two sets and each region is packed in sorted order. -/
def pack_elements (elements : List α) (set_a set_b : Finset α) (layout : VennLayout) :
    List (α × Pt) :=
  let intersection := set_a ∩ set_b
  let a_only := set_a \ set_b
  let b_only := set_b \ set_a
  (if a_only.Nonempty then
      hexagonal_pack (a_only.sort (· ≤ ·))
        (layout.circle_a_center + (-(layout.circle_radius * 0.35), 0))
        layout.crescent_radii.1 layout.crescent_element_size layout.crescent_padding
   else []) ++
  (if intersection.Nonempty then
      elliptical_pack (intersection.sort (· ≤ ·))
        (((layout.circle_a_center.1 + layout.circle_b_center.1) / 2,
          (layout.circle_a_center.2 + layout.circle_b_center.2) / 2))
        layout.lens_width layout.lens_height layout.lens_element_size layout.lens_padding
   else []) ++
  (if b_only.Nonempty then
      hexagonal_pack (b_only.sort (· ≤ ·))
        (layout.circle_b_center + (layout.circle_radius * 0.35, 0))
        layout.crescent_radii.2 layout.crescent_element_size layout.crescent_padding
   else [])

/-- Convenience function `calculate_venn_layout`. -/
def calculate_venn_layout (set_a set_b : Finset α) : VennLayout :=
  calculate_layout set_a set_b

/-- Convenience function `pack_venn_elements`. -/
def pack_venn_elements (elements : List α) (set_a set_b : Finset α) (layout : VennLayout) :
    List (α × Pt) :=
  pack_elements elements set_a set_b layout

/-! ### Basic facts about the geometry kernel and the tier table -/

lemma select_tier_eq (n : ℕ) :
    select_tier n =
      if n ≤ 15 then ("comfortable", ⟨2.2, 38, 0.35⟩)
      else if n ≤ 25 then ("moderate", ⟨2.0, 32, 0.28⟩)
      else if n ≤ 40 then ("tight", ⟨1.8, 28, 0.22⟩)
      else if n ≤ 60 then ("very_tight", ⟨1.5, 24, 0.18⟩)
      else (("warning" : String), (⟨1.2, 20, 0.15⟩ : TierParams)) := by
  simp only [select_tier, TIER_THRESHOLDS, select_tier_from]

/-- C4: for every `R > 0`, `calculate_lens_area` returns `0` for `d ≥ 2R`,
`πR²` for `d ≤ 0` (in particular at `d = 0` it is `πR²` and at `d = 2R` it is
`0`), and otherwise is the exact circle-circle intersection formula clamped to
be nonnegative. -/
theorem C4_lens_area_piecewise (R : ℝ) (hR : 0 < R) :
    (∀ d, 2 * R ≤ d → calculate_lens_area R d = 0) ∧
    (∀ d, d ≤ 0 → calculate_lens_area R d = π * R ^ 2) ∧
    calculate_lens_area R 0 = π * R ^ 2 ∧
    calculate_lens_area R (2 * R) = 0 ∧
    (∀ d, 0 < d → d < 2 * R →
      calculate_lens_area R d =
        max 0 (2 * R ^ 2 * Real.arccos (d / (2 * R)) - d / 2 * Real.sqrt (4 * R ^ 2 - d ^ 2))) := by
  have h0 : ¬ (2 * R ≤ (0 : ℝ)) := by linarith
  refine ⟨fun d hd => ?_, fun d hd => ?_, ?_, ?_, fun d hd1 hd2 => ?_⟩
  · rw [calculate_lens_area, if_pos hd]
  · have : ¬ (2 * R ≤ d) := by linarith
    rw [calculate_lens_area, if_neg this, if_pos hd]
  · rw [calculate_lens_area, if_neg h0, if_pos le_rfl]
  · rw [calculate_lens_area, if_pos le_rfl]
  · rw [calculate_lens_area, if_neg (by linarith), if_neg (by linarith)]

/-- Witness for `C4_lens_area_piecewise` at `R = 1`. -/
theorem C4_lens_area_piecewise_witness :
    calculate_lens_area 1 0 = π * 1 ^ 2 ∧ calculate_lens_area 1 (2 * 1) = 0 :=
  ⟨(C4_lens_area_piecewise 1 one_pos).2.2.1, (C4_lens_area_piecewise 1 one_pos).2.2.2.1⟩

/-- C9: the tier is a pure function of the union size via the fixed thresholds
(`≤15` comfortable, `≤25` moderate, `≤40` tight, `≤60` very_tight, otherwise
warning, first match winning), and the tier's radius, font and padding are each
monotonically non-increasing as the union size grows. -/
theorem C9_tier_policy (n m : ℕ) (hnm : n ≤ m) :
    (n ≤ 15 → select_tier n = ("comfortable", ⟨2.2, 38, 0.35⟩)) ∧
    (15 < n → n ≤ 25 → select_tier n = ("moderate", ⟨2.0, 32, 0.28⟩)) ∧
    (25 < n → n ≤ 40 → select_tier n = ("tight", ⟨1.8, 28, 0.22⟩)) ∧
    (40 < n → n ≤ 60 → select_tier n = ("very_tight", ⟨1.5, 24, 0.18⟩)) ∧
    (60 < n → select_tier n = ("warning", ⟨1.2, 20, 0.15⟩)) ∧
    (select_tier m).2.radius ≤ (select_tier n).2.radius ∧
    (select_tier m).2.font ≤ (select_tier n).2.font ∧
    (select_tier m).2.padding ≤ (select_tier n).2.padding := by
  rw [select_tier_eq n, select_tier_eq m]
  refine ⟨?_, ?_, ?_, ?_, ?_, ?_, ?_, ?_⟩ <;>
    · split_ifs <;> simp <;> first | rfl | omega | norm_num

/-- Witness for `C9_tier_policy` at `n = 10`, `m = 30`. -/
theorem C9_tier_policy_witness :
    select_tier 10 = ("comfortable", ⟨2.2, 38, 0.35⟩) ∧
    (select_tier 30).2.radius ≤ (select_tier 10).2.radius :=
  ⟨(C9_tier_policy 10 30 (by norm_num)).1 (by norm_num),
   (C9_tier_policy 10 30 (by norm_num)).2.2.2.2.2.1⟩

/-! ### The separation solver always returns a midpoint of a sub-bracket -/

lemma solve_loop_is_midpoint (R req tol : ℝ) :
    ∀ (n : ℕ) (a b : ℝ), a ≤ b →
      ∃ c d, a ≤ c ∧ c ≤ d ∧ d ≤ b ∧ solve_loop R req tol n a b = (c + d) / 2 := by
  intro n
  induction n with
  | zero => exact fun a b hab => ⟨a, b, le_rfl, hab, le_rfl, rfl⟩
  | succ n ih =>
      intro a b hab
      have hmid₁ : a ≤ (a + b) / 2 := by linarith
      have hmid₂ : (a + b) / 2 ≤ b := by linarith
      simp only [solve_loop]
      split_ifs with h1 h2 h3
      · exact ⟨a, b, le_rfl, hab, le_rfl, rfl⟩
      · exact ⟨a, b, le_rfl, hab, le_rfl, rfl⟩
      · obtain ⟨c, d, hc, hcd, hd, heq⟩ := ih ((a + b) / 2) b hmid₂
        exact ⟨c, d, le_trans hmid₁ hc, hcd, hd, heq⟩
      · obtain ⟨c, d, hc, hcd, hd, heq⟩ := ih a ((a + b) / 2) hmid₁
        exact ⟨c, d, hc, hcd, le_trans hd hmid₂, heq⟩

/-- C5: for every `R > 0` and `required_area ≥ 0` the solver is total: it
returns a separation in `[0, 2R]`; when the required area exceeds 95% of `πR²`
it returns the near-zero separation `0` (`d_min * 1.1`) without iterating, and
otherwise the returned value is the final midpoint of a bisection sub-bracket
of `[0, 2R]`. -/
theorem C5_solver_totality (R req : ℝ) (hR : 0 < R) (hreq : 0 ≤ req) :
    (π * R ^ 2 * 0.95 < req → solve_lens_separation R req 0.005 100 = 0) ∧
    solve_lens_separation R req 0.005 100 ∈ Set.Icc 0 (2 * R) ∧
    (req ≤ π * R ^ 2 * 0.95 →
      ∃ a b, 0 ≤ a ∧ a ≤ b ∧ b ≤ 2 * R ∧
        solve_lens_separation R req 0.005 100 = (a + b) / 2) := by
  have h2R : (0 : ℝ) ≤ 2 * R := by linarith
  simp only [solve_lens_separation]
  split_ifs with hbr
  · refine ⟨fun _ => by norm_num, by constructor <;> [norm_num; linarith], fun habs => ?_⟩
    exact absurd hbr (not_lt.mpr habs)
  · obtain ⟨a, b, ha, hab, hb, heq⟩ := solve_loop_is_midpoint R req 0.005 100 0 (2 * R) h2R
    refine ⟨fun habs => absurd habs hbr, ?_, fun _ => ⟨a, b, ha, hab, hb, heq⟩⟩
    rw [heq]
    exact ⟨by linarith, by linarith⟩

/-- Witness for `C5_solver_totality` at `R = 1`, `required_area = 4` (which
exceeds `0.95·π`, so the degraded-fit branch fires). -/
theorem C5_solver_totality_witness :
    solve_lens_separation 1 4 0.005 100 = 0 ∧
    solve_lens_separation 1 4 0.005 100 ∈ Set.Icc 0 (2 * 1) :=
  ⟨(C5_solver_totality 1 4 one_pos (by norm_num)).1 (by nlinarith [Real.pi_lt_d2]),
   (C5_solver_totality 1 4 one_pos (by norm_num)).2.1⟩

/-! ### The assignment loop: every element gets a slot, overflow goes to the center -/

lemma assign_eq_zip_append (els : List α) (cands : List Pt) (c : Pt) :
    assign els cands c =
      (els.take cands.length).zip cands ++ (els.drop cands.length).map (fun a => (a, c)) := by
  induction els generalizing cands with
  | nil => simp [assign]
  | cons a as_ ih =>
      cases cands with
      | nil => simp [assign, ih]
      | cons q qs => simp [assign, ih]

lemma assign_map_fst (els : List α) (cands : List Pt) (c : Pt) :
    (assign els cands c).map Prod.fst = els := by
  induction els generalizing cands with
  | nil => simp [assign]
  | cons a as_ ih => cases cands <;> simp [assign, ih]

lemma assign_map_snd_of_le (els : List α) (cands : List Pt) (c : Pt)
    (h : els.length ≤ cands.length) :
    (assign els cands c).map Prod.snd = cands.take els.length := by
  induction els generalizing cands with
  | nil => simp [assign]
  | cons a as_ ih =>
      cases cands with
      | nil => simp at h
      | cons q qs =>
          simp only [List.length_cons] at h
          simp [assign, ih qs (Nat.le_of_succ_le_succ h)]

lemma hexagonal_pack_map_fst (els : List α) (c : Pt) (r es p : ℝ) :
    (hexagonal_pack els c r es p).map Prod.fst = els :=
  assign_map_fst ..

lemma elliptical_pack_map_fst (els : List α) (c : Pt) (w h es p : ℝ) :
    (elliptical_pack els c w h es p).map Prod.fst = els :=
  assign_map_fst ..

lemma pack_elements_map_fst (els : List α) (A B : Finset α) (L : VennLayout) :
    (pack_elements els A B L).map Prod.fst =
      (A \ B).sort (· ≤ ·) ++ (A ∩ B).sort (· ≤ ·) ++ (B \ A).sort (· ≤ ·) := by
  have key : ∀ (s : Finset α) (l : List (α × Pt)),
      l.map Prod.fst = s.sort (· ≤ ·) →
      (if s.Nonempty then l else []).map Prod.fst = s.sort (· ≤ ·) := by
    intro s l hl
    split_ifs with hs
    · exact hl
    · rw [Finset.not_nonempty_iff_eq_empty.mp hs]
      simp [Finset.sort_empty]
  simp only [pack_elements, List.map_append]
  rw [key _ _ (hexagonal_pack_map_fst ..), key _ _ (elliptical_pack_map_fst ..),
    key _ _ (hexagonal_pack_map_fst ..)]

/-- C7: the production packing path is deterministic — any two invocations of
`pack_elements` (and of the hexagonal packer) on identical inputs return
identical (bit-for-bit, in this exact-real model) position maps; there is no
randomness anywhere in these functions. -/
theorem C7_packing_deterministic (els₁ els₂ : List α) (A₁ A₂ B₁ B₂ : Finset α)
    (L₁ L₂ : VennLayout) (c₁ c₂ : Pt) (r₁ r₂ es₁ es₂ p₁ p₂ : ℝ)
    (hels : els₁ = els₂) (hA : A₁ = A₂) (hB : B₁ = B₂) (hL : L₁ = L₂)
    (hc : c₁ = c₂) (hr : r₁ = r₂) (hes : es₁ = es₂) (hp : p₁ = p₂) :
    pack_elements els₁ A₁ B₁ L₁ = pack_elements els₂ A₂ B₂ L₂ ∧
    hexagonal_pack els₁ c₁ r₁ es₁ p₁ = hexagonal_pack els₂ c₂ r₂ es₂ p₂ := by
  subst hels hA hB hL hc hr hes hp
  exact ⟨rfl, rfl⟩

/-- Witness for `C7_packing_deterministic` on concrete identical inputs. -/
theorem C7_packing_deterministic_witness :
    pack_elements [0] {0} {0} (calculate_layout ({0} : Finset ℕ) {0}) =
      pack_elements [0] {0} {0} (calculate_layout ({0} : Finset ℕ) {0}) ∧
    hexagonal_pack ([0] : List ℕ) (0, 0) 1 1 1 = hexagonal_pack [0] (0, 0) 1 1 1 :=
  C7_packing_deterministic [0] [0] {0} {0} {0} {0} _ _ (0, 0) (0, 0) 1 1 1 1 1 1
    rfl rfl rfl rfl rfl rfl rfl rfl

/-- C10 (implicit): the `elements` argument of `pack_elements` /
`pack_venn_elements` has no effect on the result; the key list is always the
three regions in sorted element order, i.e. exactly the elements of `A ∪ B`. -/
theorem C10_elements_argument_unused (els₁ els₂ : List α) (A B : Finset α) (L : VennLayout) :
    pack_venn_elements els₁ A B L = pack_venn_elements els₂ A B L ∧
    (pack_venn_elements els₁ A B L).map Prod.fst =
      (A \ B).sort (· ≤ ·) ++ (A ∩ B).sort (· ≤ ·) ++ (B \ A).sort (· ≤ ·) ∧
    ∀ x, x ∈ (pack_venn_elements els₁ A B L).map Prod.fst ↔ x ∈ A ∪ B := by
  refine ⟨rfl, pack_elements_map_fst .., fun x => ?_⟩
  rw [pack_venn_elements, pack_elements_map_fst]
  simp only [List.mem_append, Finset.mem_sort, Finset.mem_sdiff, Finset.mem_inter,
    Finset.mem_union]
  tauto

/-- C8: end-to-end totality and coverage — `calculate_layout` is total and
reports the true region sizes, the position map built by `pack_elements`
contains exactly one entry per element of `A ∪ B` (its key list is a
permutation of the sorted union), and an element beyond its region's candidate
count is paired with the exact region center rather than dropped. -/
theorem C8_end_to_end_coverage (A B : Finset α) (els : List α) (L : VennLayout) :
    ((pack_elements els A B L).map Prod.fst).Perm ((A ∪ B).sort (· ≤ ·)) ∧
    (calculate_layout A B).union_size = (A ∪ B).card ∧
    (calculate_layout A B).intersection_size = (A ∩ B).card ∧
    (∀ (l : List α) (cands : List Pt) (c : Pt),
      assign l cands c =
        (l.take cands.length).zip cands ++ (l.drop cands.length).map (fun a => (a, c))) := by
  refine ⟨?_, by simp [calculate_layout], by simp [calculate_layout],
    fun l cands c => assign_eq_zip_append l cands c⟩
  rw [pack_elements_map_fst]
  have hd1 : ((A \ B).sort (· ≤ ·) ++ (A ∩ B).sort (· ≤ ·)).Nodup := by
    rw [List.nodup_append]
    refine ⟨Finset.sort_nodup _ _, Finset.sort_nodup _ _, fun x hx hx2 => ?_⟩
    simp only [Finset.mem_sort, Finset.mem_sdiff, Finset.mem_inter] at hx hx2
    exact hx.2 hx2.2
  have hd : ((A \ B).sort (· ≤ ·) ++ (A ∩ B).sort (· ≤ ·) ++ (B \ A).sort (· ≤ ·)).Nodup := by
    rw [List.nodup_append]
    refine ⟨hd1, Finset.sort_nodup _ _, fun x hx hx2 => ?_⟩
    simp only [List.mem_append, Finset.mem_sort, Finset.mem_sdiff, Finset.mem_inter] at hx hx2
    rcases hx with h | h
    · exact h.2 hx2.1
    · exact hx2.2 h.1
  refine (List.perm_ext_iff_of_nodup hd (Finset.sort_nodup _ _)).mpr fun x => ?_
  simp only [List.mem_append, Finset.mem_sort, Finset.mem_sdiff, Finset.mem_inter,
    Finset.mem_union]
  tauto

/-! ### Lens/crescent independence (C1) -/

/-- C1 counterexample: with the intersection size fixed at 2, growing the
a-only region from 0 to 28 elements moves the union from tier "comfortable" to
tier "tight" and changes the lens font size (38 to 28), so crescent-only inputs
do change returned lens parameters. -/
theorem C1_counterexample :
    (calculate_layout (Finset.range 2) (Finset.range 2)).intersection_size =
      (calculate_layout (Finset.range 30) (Finset.range 2)).intersection_size ∧
    (calculate_layout (Finset.range 2) (Finset.range 2)).lens_font_size ≠
      (calculate_layout (Finset.range 30) (Finset.range 2)).lens_font_size := by
  have h2 : Finset.range 30 ∪ Finset.range 2 = Finset.range 30 :=
    Finset.union_eq_left.mpr (Finset.range_subset.mpr (by norm_num))
  have h3 : Finset.range 30 ∩ Finset.range 2 = Finset.range 2 :=
    Finset.inter_eq_right.mpr (Finset.range_subset.mpr (by norm_num))
  constructor
  · simp [calculate_layout, h3, Finset.inter_self]
  · simp only [calculate_layout, calculate_lens_parameters, Finset.union_self, h2,
      Finset.card_range, select_tier_eq]
    norm_num

/-- C1 (amended): lens parameters depend only on the intersection size and the
tier, and crescent parameters only on the two crescent sizes and the tier; so
for inputs with equal union sizes (hence the same tier) the independence
invariant holds: equal intersection sizes give identical lens parameters
regardless of the crescent sizes, and equal crescent sizes give identical
crescent parameters regardless of the intersection size.  In particular a
crescent-driven font shrink never alters any lens parameter. -/
theorem C1_independence_within_tier (A B A2 B2 : Finset α)
    (hU : (A ∪ B).card = (A2 ∪ B2).card) :
    ((A ∩ B).card = (A2 ∩ B2).card →
      (calculate_layout A B).lens_font_size = (calculate_layout A2 B2).lens_font_size ∧
      (calculate_layout A B).lens_element_size = (calculate_layout A2 B2).lens_element_size ∧
      (calculate_layout A B).lens_padding = (calculate_layout A2 B2).lens_padding ∧
      (calculate_layout A B).lens_area = (calculate_layout A2 B2).lens_area ∧
      (calculate_layout A B).lens_width = (calculate_layout A2 B2).lens_width ∧
      (calculate_layout A B).lens_height = (calculate_layout A2 B2).lens_height ∧
      (calculate_layout A B).circle_separation = (calculate_layout A2 B2).circle_separation) ∧
    ((A \ B).card = (A2 \ B2).card → (B \ A).card = (B2 \ A2).card →
      (calculate_layout A B).crescent_font_size = (calculate_layout A2 B2).crescent_font_size ∧
      (calculate_layout A B).crescent_element_size =
        (calculate_layout A2 B2).crescent_element_size ∧
      (calculate_layout A B).crescent_padding = (calculate_layout A2 B2).crescent_padding ∧
      (calculate_layout A B).crescent_radii = (calculate_layout A2 B2).crescent_radii) := by
  constructor
  · intro hI
    simp only [calculate_layout]
    rw [hU, hI]
    exact ⟨rfl, rfl, rfl, rfl, rfl, rfl, rfl⟩
  · intro ha hb
    simp only [calculate_layout]
    rw [hU, ha, hb]
    exact ⟨rfl, rfl, rfl, rfl⟩

/-- Witness for `C1_independence_within_tier` on two concrete set pairs with
equal region sizes but different elements. -/
theorem C1_independence_within_tier_witness :
    (calculate_layout ({0, 1} : Finset ℕ) {1, 2}).lens_font_size =
      (calculate_layout ({5, 6} : Finset ℕ) {6, 7}).lens_font_size ∧
    (calculate_layout ({0, 1} : Finset ℕ) {1, 2}).crescent_radii =
      (calculate_layout ({5, 6} : Finset ℕ) {6, 7}).crescent_radii :=
  ⟨((C1_independence_within_tier {0, 1} {1, 2} {5, 6} {6, 7} (by decide)).1 (by decide)).1,
   ((C1_independence_within_tier {0, 1} {1, 2} {5, 6} {6, 7} (by decide)).2 (by decide)
      (by decide)).2.2.2⟩

/-! ### Analysis of the geometry kernel: derivative and strict monotonicity -/

lemma lensFormula_hasDerivAt (R : ℝ) (hR : 0 < R) (d : ℝ) (hd : d ∈ Set.Ioo 0 (2 * R)) :
    HasDerivAt (lensFormula R) (-Real.sqrt (4 * R ^ 2 - d ^ 2)) d := by
  obtain ⟨hd0, hd2⟩ := hd
  have hRne : (2 * R) ≠ 0 := by positivity
  have hu1 : d / (2 * R) ≠ -1 := by
    have : 0 < d / (2 * R) := by positivity
    linarith
  have hu2 : d / (2 * R) ≠ 1 := by
    have : d / (2 * R) < 1 := (div_lt_one (by positivity)).mpr hd2
    linarith
  have hsq : 0 < 4 * R ^ 2 - d ^ 2 := by nlinarith
  have hs0 : Real.sqrt (4 * R ^ 2 - d ^ 2) ≠ 0 := ne_of_gt (Real.sqrt_pos.mpr hsq)
  have h1 : HasDerivAt (fun x : ℝ => x / (2 * R)) (1 / (2 * R)) d := by
    simpa using (hasDerivAt_id d).div_const (2 * R)
  have h2 : HasDerivAt (fun x : ℝ => Real.arccos (x / (2 * R)))
      (-(1 / Real.sqrt (1 - (d / (2 * R)) ^ 2)) * (1 / (2 * R))) d :=
    (Real.hasDerivAt_arccos hu1 hu2).comp d h1
  have h3 : HasDerivAt (fun x : ℝ => 4 * R ^ 2 - x ^ 2) (-(2 * d)) d := by
    simpa using (hasDerivAt_pow 2 d).const_sub (4 * R ^ 2)
  have h4 : HasDerivAt (fun x : ℝ => Real.sqrt (4 * R ^ 2 - x ^ 2))
      (-(2 * d) / (2 * Real.sqrt (4 * R ^ 2 - d ^ 2))) d :=
    h3.sqrt (ne_of_gt hsq)
  have hx : HasDerivAt (fun x : ℝ => x / 2) (1 / 2) d := by
    simpa using (hasDerivAt_id d).div_const 2
  have h5 := hx.mul h4
  have h6 := (h2.const_mul (2 * R ^ 2)).sub h5
  convert h6 using 1
  have hkey : Real.sqrt (1 - (d / (2 * R)) ^ 2) = Real.sqrt (4 * R ^ 2 - d ^ 2) / (2 * R) := by
    have hrw : 1 - (d / (2 * R)) ^ 2 = (4 * R ^ 2 - d ^ 2) / (2 * R) ^ 2 := by
      field_simp
      ring
    rw [hrw, Real.sqrt_div hsq.le, Real.sqrt_sq (by positivity : (0 : ℝ) ≤ 2 * R)]
  rw [hkey]
  set s := Real.sqrt (4 * R ^ 2 - d ^ 2) with hs_def
  have hs2 : s ^ 2 = 4 * R ^ 2 - d ^ 2 := Real.sq_sqrt hsq.le
  field_simp
  linear_combination (-8 * R * s) * hs2

lemma lensFormula_continuous (R : ℝ) : Continuous (lensFormula R) := by
  apply Continuous.sub
  · exact continuous_const.mul (Real.continuous_arccos.comp (continuous_id.div_const _))
  · exact (continuous_id.div_const 2).mul
      (Real.continuous_sqrt.comp (continuous_const.sub (continuous_pow 2)))

lemma lensFormula_strictAntiOn (R : ℝ) (hR : 0 < R) :
    StrictAntiOn (lensFormula R) (Set.Icc 0 (2 * R)) := by
  apply strictAntiOn_of_deriv_neg (convex_Icc _ _) (lensFormula_continuous R).continuousOn
  intro x hx
  rw [interior_Icc] at hx
  rw [(lensFormula_hasDerivAt R hR x hx).deriv]
  have hpos : 0 < 4 * R ^ 2 - x ^ 2 := by
    obtain ⟨h1, h2⟩ := hx
    nlinarith
  simpa using Real.sqrt_pos.mpr hpos

lemma lensFormula_zero (R : ℝ) : lensFormula R 0 = π * R ^ 2 := by
  simp [lensFormula, Real.arccos_zero]
  ring

lemma lensFormula_two_R (R : ℝ) (hR : 0 < R) : lensFormula R (2 * R) = 0 := by
  have h1 : (2 * R) / (2 * R) = 1 := div_self (by positivity)
  have h2 : 4 * R ^ 2 - (2 * R) ^ 2 = 0 := by ring
  simp [lensFormula, h1, h2, Real.arccos_one]

lemma lensFormula_nonneg (R : ℝ) (hR : 0 < R) (d : ℝ) (h0 : 0 ≤ d) (h2 : d ≤ 2 * R) :
    0 ≤ lensFormula R d := by
  rcases eq_or_lt_of_le h2 with heq | hlt
  · rw [heq, lensFormula_two_R R hR]
  · have := lensFormula_strictAntiOn R hR ⟨h0, h2⟩
      ⟨by positivity, le_rfl⟩ hlt
    rw [lensFormula_two_R R hR] at this
    exact this.le

lemma calculate_lens_area_eqOn (R : ℝ) (hR : 0 < R) (d : ℝ) (h0 : 0 ≤ d) (h2 : d ≤ 2 * R) :
    calculate_lens_area R d = lensFormula R d := by
  by_cases hhi : 2 * R ≤ d
  · have hde : d = 2 * R := le_antisymm h2 hhi
    rw [calculate_lens_area, if_pos hhi, hde, lensFormula_two_R R hR]
  · by_cases hlo : d ≤ 0
    · have hde : d = 0 := le_antisymm hlo h0
      rw [calculate_lens_area, if_neg hhi, if_pos hlo, hde, lensFormula_zero]
    · rw [calculate_lens_area, if_neg hhi, if_neg hlo]
      exact max_eq_right
        (lensFormula_nonneg R hR d (le_of_not_le hlo) (le_of_not_le hhi))

/-- C3: for `R > 0` and `0 ≤ d1 < d2 ≤ 2R` the lens area strictly decreases:
`lensArea(R, d2) < lensArea(R, d1)` (hence in particular
`lensArea(R, d1) ≥ lensArea(R, d2)`), the monotonicity that validates the
bisection solver. -/
theorem C3_lens_area_strictly_decreasing (R d1 d2 : ℝ) (hR : 0 < R) (h0 : 0 ≤ d1)
    (h12 : d1 < d2) (h2 : d2 ≤ 2 * R) :
    calculate_lens_area R d2 < calculate_lens_area R d1 := by
  have m1 : d1 ∈ Set.Icc 0 (2 * R) := ⟨h0, by linarith⟩
  have m2 : d2 ∈ Set.Icc 0 (2 * R) := ⟨by linarith, h2⟩
  rw [calculate_lens_area_eqOn R hR d1 m1.1 m1.2, calculate_lens_area_eqOn R hR d2 m2.1 m2.2]
  exact lensFormula_strictAntiOn R hR m1 m2 h12

/-- Witness for `C3_lens_area_strictly_decreasing` at `R = 1`, `d1 = 0`,
`d2 = 2`. -/
theorem C3_lens_area_strictly_decreasing_witness :
    calculate_lens_area 1 2 < calculate_lens_area 1 0 :=
  C3_lens_area_strictly_decreasing 1 0 2 one_pos le_rfl two_pos (by norm_num)

/-! ### Solver round-trip (C2): counterexample at the degraded-fit branch, and
convergence on the bisection branch -/

lemma calculate_lens_area_nonneg (R d : ℝ) : 0 ≤ calculate_lens_area R d := by
  rw [calculate_lens_area]
  split_ifs
  · exact le_rfl
  · positivity
  · exact le_max_left _ _

lemma calculate_lens_area_antitone (R : ℝ) (hR : 0 < R) {x y : ℝ} (h0 : 0 ≤ x) (hxy : x ≤ y)
    (hy : y ≤ 2 * R) : calculate_lens_area R y ≤ calculate_lens_area R x := by
  rcases eq_or_lt_of_le hxy with heq | hlt
  · rw [heq]
  · exact (C3_lens_area_strictly_decreasing R x y hR h0 hlt hy).le

lemma calculate_lens_area_lipschitz (R : ℝ) (hR : 0 < R) {a b : ℝ} (h0 : 0 ≤ a) (hab : a ≤ b)
    (hb : b ≤ 2 * R) :
    calculate_lens_area R a - calculate_lens_area R b ≤ 2 * R * (b - a) := by
  rcases eq_or_lt_of_le hab with heq | hlt
  · rw [heq]
    linarith
  · obtain ⟨c, hc, hslope⟩ :=
      exists_hasDerivAt_eq_slope (lensFormula R) (fun x => -Real.sqrt (4 * R ^ 2 - x ^ 2)) hlt
        (lensFormula_continuous R).continuousOn
        (fun x hx => lensFormula_hasDerivAt R hR x ⟨lt_of_le_of_lt h0 hx.1, lt_of_lt_of_le hx.2 hb⟩)
    have hcm : Real.sqrt (4 * R ^ 2 - c ^ 2) ≤ 2 * R := by
      have h1 : Real.sqrt (4 * R ^ 2 - c ^ 2) ≤ Real.sqrt (4 * R ^ 2) :=
        Real.sqrt_le_sqrt (by nlinarith [hc.1, hc.2])
      have h2 : Real.sqrt (4 * R ^ 2) = 2 * R := by
        rw [show (4 : ℝ) * R ^ 2 = (2 * R) ^ 2 by ring, Real.sqrt_sq (by positivity)]
      linarith
    have hbne : b - a ≠ 0 := sub_ne_zero.mpr hlt.ne'
    rw [eq_div_iff hbne] at hslope
    rw [calculate_lens_area_eqOn R hR a h0 (by linarith),
      calculate_lens_area_eqOn R hR b (by linarith) hb]
    have hs0 : 0 ≤ Real.sqrt (4 * R ^ 2 - c ^ 2) := Real.sqrt_nonneg _
    nlinarith [hslope]

/-- One unfolding step of the bisection loop (the Python loop body). -/
lemma solve_loop_succ (R req tol : ℝ) (n : ℕ) (a b : ℝ) :
    solve_loop R req tol (n + 1) a b =
      if |calculate_lens_area R ((a + b) / 2) - req| < tol then (a + b) / 2
      else if n = 0 then (a + b) / 2
      else if req < calculate_lens_area R ((a + b) / 2) then
        solve_loop R req tol n ((a + b) / 2) b
      else solve_loop R req tol n a ((a + b) / 2) := rfl

lemma solve_loop_tolerance (R req tol : ℝ) (hR : 0 < R) (htol : 0 < tol) :
    ∀ (k : ℕ) (a b : ℝ), 0 ≤ a → a ≤ b → b ≤ 2 * R →
      req ≤ calculate_lens_area R a → calculate_lens_area R b ≤ req →
      2 * R * (b - a) < tol * 2 ^ k →
      |calculate_lens_area R (solve_loop R req tol (k + 1) a b) - req| < tol := by
  intro k
  induction k with
  | zero =>
      intro a b ha hab hb hfa hfb hw
      have hm1 : a ≤ (a + b) / 2 := by linarith
      have hm2 : (a + b) / 2 ≤ b := by linarith
      have hAm1 : calculate_lens_area R ((a + b) / 2) ≤ calculate_lens_area R a :=
        calculate_lens_area_antitone R hR ha hm1 (by linarith)
      have hAm2 : calculate_lens_area R b ≤ calculate_lens_area R ((a + b) / 2) :=
        calculate_lens_area_antitone R hR (by linarith) hm2 hb
      have hlip : calculate_lens_area R a - calculate_lens_area R b ≤ 2 * R * (b - a) :=
        calculate_lens_area_lipschitz R hR ha hab hb
      simp only [pow_zero, mul_one] at hw
      rw [solve_loop_succ]
      by_cases h1 : |calculate_lens_area R ((a + b) / 2) - req| < tol
      · rw [if_pos h1]
        exact h1
      · rw [if_neg h1, if_pos rfl]
        rw [abs_lt]
        exact ⟨by linarith, by linarith⟩
  | succ k ih =>
      intro a b ha hab hb hfa hfb hw
      have hm1 : a ≤ (a + b) / 2 := by linarith
      have hm2 : (a + b) / 2 ≤ b := by linarith
      have hw2 : 2 * R * (b - a) < 2 * (tol * 2 ^ k) := by
        have : (tol * 2 ^ (k + 1)) = 2 * (tol * 2 ^ k) := by ring
        linarith [this ▸ hw]
      rw [solve_loop_succ]
      by_cases h1 : |calculate_lens_area R ((a + b) / 2) - req| < tol
      · rw [if_pos h1]
        exact h1
      · rw [if_neg h1, if_neg (Nat.succ_ne_zero k)]
        by_cases h3 : req < calculate_lens_area R ((a + b) / 2)
        · rw [if_pos h3]
          exact ih ((a + b) / 2) b (by linarith) hm2 hb h3.le hfb (by nlinarith)
        · rw [if_neg h3]
          exact ih a ((a + b) / 2) ha hm1 (by linarith) hfa (not_lt.mp h3) (by nlinarith)

/-- Numeric bound: `arccos(1/200) ≥ π/2 − 1/100`. -/
lemma arccos_one_div_two_hundred_lower : π / 2 - 1 / 100 ≤ Real.arccos (1 / 200) := by
  rw [Real.arccos_eq_pi_div_two_sub_arcsin]
  have hsin : (1 / 200 : ℝ) ≤ Real.sin (1 / 100) := by
    have h := Real.sin_gt_sub_cube (by norm_num : (0 : ℝ) < 1 / 100) (by norm_num)
    nlinarith
  have harcsin : Real.arcsin (1 / 200) ≤ 1 / 100 := by
    calc Real.arcsin (1 / 200) ≤ Real.arcsin (Real.sin (1 / 100)) :=
          Real.monotone_arcsin hsin
      _ = 1 / 100 := Real.arcsin_sin (by nlinarith [Real.pi_gt_three])
          (by nlinarith [Real.pi_gt_three])
  linarith

/-- Numeric bounds on the lens area at `R = 1`, `d = 1/100`: it lies strictly
between `0.95·π` and `π − 0.0095`. -/
lemma lens_area_at_small_sep :
    π - 3 / 100 ≤ calculate_lens_area 1 (1 / 100) ∧
    calculate_lens_area 1 (1 / 100) ≤ π - 19 / 2000 := by
  have heq : calculate_lens_area 1 (1 / 100) = lensFormula 1 (1 / 100) :=
    calculate_lens_area_eqOn 1 one_pos (1 / 100) (by norm_num) (by norm_num)
  have hform : lensFormula 1 (1 / 100) =
      2 * Real.arccos (1 / 200) - 1 / 200 * Real.sqrt (39999 / 10000) := by
    rw [lensFormula]
    norm_num
  have hsqrt_le : Real.sqrt (39999 / 10000) ≤ 2 := by
    rw [show (2 : ℝ) = Real.sqrt 4 by
      rw [show (4 : ℝ) = 2 ^ 2 by norm_num, Real.sqrt_sq (by norm_num)]]
    exact Real.sqrt_le_sqrt (by norm_num)
  have hsqrt_ge : (19 / 10 : ℝ) ≤ Real.sqrt (39999 / 10000) :=
    (Real.le_sqrt (by norm_num) (by norm_num)).mpr (by norm_num)
  have hacos_le : Real.arccos (1 / 200) ≤ π / 2 :=
    Real.arccos_le_pi_div_two.mpr (by norm_num)
  have hacos_ge := arccos_one_div_two_hundred_lower
  have hsqrt_nonneg : (0 : ℝ) ≤ Real.sqrt (39999 / 10000) := Real.sqrt_nonneg _
  constructor
  · rw [heq, hform]
    nlinarith
  · rw [heq, hform]
    nlinarith

/-- C2 counterexample: at `R = 1`, `d0 = 1/100` the required area exceeds 95%
of `πR²`, the solver takes the degraded-fit branch and returns separation `0`,
and the round-trip error is `π − lensArea(1, 1/100) ≥ 0.0095`, which violates
the claimed tolerance `0.005`. -/
theorem C2_round_trip_counterexample :
    ¬ (|calculate_lens_area 1
          (solve_lens_separation 1 (calculate_lens_area 1 (1 / 100)) 0.005 100) -
        calculate_lens_area 1 (1 / 100)| < 0.005) := by
  obtain ⟨hlow, hhigh⟩ := lens_area_at_small_sep
  have hbranch : π * 1 ^ 2 * 0.95 < calculate_lens_area 1 (1 / 100) := by
    nlinarith [Real.pi_gt_three]
  have hsolve : solve_lens_separation 1 (calculate_lens_area 1 (1 / 100)) 0.005 100 = 0 := by
    simp only [solve_lens_separation]
    rw [if_pos hbranch]
    norm_num
  rw [hsolve]
  have h0 : calculate_lens_area 1 0 = π * 1 ^ 2 := (C4_lens_area_piecewise 1 one_pos).2.2.1
  rw [h0]
  rw [abs_of_nonneg (by nlinarith)]
  norm_num
  nlinarith

/-- C2 (amended): the round-trip property holds on the bisection branch — for
every `R > 0` small enough that 100 iterations resolve the area to within the
tolerance (`4R² < 0.005·2⁹⁹`, true for any practical radius) and every
`d0 ∈ (0, 2R)` whose lens area does not exceed 95% of `πR²` (i.e. the
degraded-fit early return does not fire), the solver returns `d'` with
`|lensArea(R, d') − lensArea(R, d0)| < 0.005`. -/
theorem C2_round_trip_amended (R d0 : ℝ) (hR : 0 < R) (hRsmall : 4 * R ^ 2 < 0.005 * 2 ^ 99)
    (hd0 : 0 < d0) (hd2 : d0 < 2 * R)
    (hreq : calculate_lens_area R d0 ≤ π * R ^ 2 * 0.95) :
    |calculate_lens_area R
        (solve_lens_separation R (calculate_lens_area R d0) 0.005 100) -
      calculate_lens_area R d0| < 0.005 := by
  set req := calculate_lens_area R d0 with hreq_def
  have hsolve : solve_lens_separation R req 0.005 100 = solve_loop R req 0.005 100 0 (2 * R) := by
    simp only [solve_lens_separation]
    rw [if_neg (not_lt.mpr hreq)]
  rw [hsolve]
  have h0b : req ≤ calculate_lens_area R 0 :=
    calculate_lens_area_antitone R hR le_rfl hd0.le (by linarith)
  have h2b : calculate_lens_area R (2 * R) ≤ req := by
    have hz : calculate_lens_area R (2 * R) = 0 := (C4_lens_area_piecewise R hR).2.2.2.1
    rw [hz]
    exact calculate_lens_area_nonneg R d0
  have h := solve_loop_tolerance R req 0.005 hR (by norm_num) 99 0 (2 * R) le_rfl
    (by linarith) le_rfl h0b h2b (by nlinarith)
  have h100 : (99 : ℕ) + 1 = 100 := rfl
  rw [h100] at h
  exact h

/-- Helper for the amended-claim witness: `lensArea(1, 1) ≤ 0.95·π`. -/
lemma lens_area_one_one_small : calculate_lens_area 1 1 ≤ π * 1 ^ 2 * 0.95 := by
  have heq : calculate_lens_area 1 1 = lensFormula 1 1 :=
    calculate_lens_area_eqOn 1 one_pos 1 (by norm_num) (by norm_num)
  have hform : lensFormula 1 1 = 2 * Real.arccos (1 / 2) - 1 / 2 * Real.sqrt 3 := by
    rw [lensFormula]
    norm_num
  have hacos : Real.arccos (1 / 2) ≤ π / 2 := Real.arccos_le_pi_div_two.mpr (by norm_num)
  have hsqrt : (17 / 10 : ℝ) ≤ Real.sqrt 3 :=
    (Real.le_sqrt (by norm_num) (by norm_num)).mpr (by norm_num)
  rw [heq, hform]
  nlinarith [Real.pi_lt_four]

/-- Witness for `C2_round_trip_amended` at `R = 1`, `d0 = 1`. -/
theorem C2_round_trip_amended_witness :
    |calculate_lens_area 1 (solve_lens_separation 1 (calculate_lens_area 1 1) 0.005 100) -
      calculate_lens_area 1 1| < 0.005 :=
  C2_round_trip_amended 1 1 one_pos (by norm_num) one_pos (by norm_num)
    lens_area_one_one_small

/-! ### Packing (C6): the hexagonal lattice keeps a minimum spacing -/

lemma intRange_nodup (n : ℤ) : (intRange n).Nodup := by
  rw [intRange]
  apply List.Nodup.map
  · intro a b hab
    change (a : ℤ) - n = (b : ℤ) - n at hab
    omega
  · exact List.nodup_range _

lemma intRange_mem_zero (n : ℤ) (hn : 0 ≤ n) : (0 : ℤ) ∈ intRange n := by
  rw [intRange]
  apply List.mem_map.mpr
  refine ⟨n.toNat, ?_, ?_⟩
  · apply List.mem_range.mpr
    omega
  · omega

lemma npNorm_sub_comm (a b : Pt) : npNorm (a - b) = npNorm (b - a) := by
  simp only [npNorm, Prod.fst_sub, Prod.snd_sub]
  ring_nf

lemma npNorm_zero_self (a : Pt) : npNorm (a - a) = 0 := by
  simp [npNorm]

lemma int_sq_ge_one {m : ℤ} (hm : m ≠ 0) : (1 : ℝ) ≤ (m : ℝ) ^ 2 := by
  have h2 : 1 ≤ m ∨ m ≤ -1 := by omega
  rcases h2 with h' | h'
  · have hc : (1 : ℝ) ≤ (m : ℝ) := by exact_mod_cast h'
    nlinarith
  · have hc : (m : ℝ) ≤ -1 := by exact_mod_cast h'
    nlinarith

lemma int_sq_ge_four {m : ℤ} (hm : 2 ≤ m ∨ m ≤ -2) : (4 : ℝ) ≤ (m : ℝ) ^ 2 := by
  rcases hm with h' | h'
  · have hc : (2 : ℝ) ≤ (m : ℝ) := by exact_mod_cast h'
    nlinarith
  · have hc : (m : ℝ) ≤ -2 := by exact_mod_cast h'
    nlinarith

/-- Two distinct hexagonal-lattice offsets are at least `0.999` spacings apart
(the `0.866 ≈ √3/2` approximation shaves the exact minimum `√0.999956·s` down
to just below one spacing). -/
lemma hexPoint_dist_ge (s : ℝ) (hs : 0 < s) (r1 c1 r2 c2 : ℤ)
    (h : ¬(r1 = r2 ∧ c1 = c2)) :
    0.999 * s ≤ npNorm (hexPoint s (s * 0.866) r1 c1 - hexPoint s (s * 0.866) r2 c2) := by
  have h999 : (0 : ℝ) ≤ 0.999 * s := by positivity
  rw [npNorm]
  rw [Real.le_sqrt h999 (by positivity)]
  simp only [hexPoint, Prod.fst_sub, Prod.snd_sub]
  rcases eq_or_ne r1 r2 with hr | hr
  · subst hr
    have hc : c1 - c2 ≠ 0 := fun hc => h ⟨rfl, by omega⟩
    have hcast : (1 : ℝ) ≤ ((c1 : ℝ) - c2) ^ 2 := by
      have := int_sq_ge_one hc
      push_cast at this
      linarith
    nlinarith [sq_nonneg s, hs.le]
  · have hy : ((r1 : ℝ) * (s * 0.866) - (r2 : ℝ) * (s * 0.866)) ^ 2 =
        ((r1 : ℝ) - r2) ^ 2 * (s * 0.866) ^ 2 := by ring
    by_cases hpar : r1 % 2 = r2 % 2
    · have hv : (4 : ℝ) ≤ ((r1 : ℝ) - r2) ^ 2 := by
        have := int_sq_ge_four (show 2 ≤ r1 - r2 ∨ r1 - r2 ≤ -2 by omega)
        push_cast at this
        linarith
      nlinarith [sq_nonneg ((c1 : ℝ) * s + (if r1 % 2 ≠ 0 then s / 2 else 0) -
        ((c2 : ℝ) * s + (if r2 % 2 ≠ 0 then s / 2 else 0))), sq_nonneg s, hs.le]
    · have hv : (1 : ℝ) ≤ ((r1 : ℝ) - r2) ^ 2 := by
        have := int_sq_ge_one (show r1 - r2 ≠ 0 by omega)
        push_cast at this
        linarith
      by_cases hp1 : r1 % 2 = 0
      · have hp2 : ¬ (r2 % 2 = 0) := fun hc => hpar (by omega)
        rw [if_neg (not_not_intro hp1), if_pos hp2]
        have hodd : (1 : ℝ) ≤ (2 * ((c1 : ℝ) - c2) - 1) ^ 2 := by
          have := int_sq_ge_one (show 2 * (c1 - c2) - 1 ≠ 0 by omega)
          push_cast at this
          linarith
        have hx : ((c1 : ℝ) * s + 0 - ((c2 : ℝ) * s + s / 2)) ^ 2 =
            (2 * ((c1 : ℝ) - c2) - 1) ^ 2 * (s / 2) ^ 2 := by ring
        nlinarith [sq_nonneg s, hs.le]
      · have hp2 : r2 % 2 = 0 := by omega
        rw [if_pos hp1, if_neg (not_not_intro hp2)]
        have hodd : (1 : ℝ) ≤ (2 * ((c1 : ℝ) - c2) + 1) ^ 2 := by
          have := int_sq_ge_one (show 2 * (c1 - c2) + 1 ≠ 0 by omega)
          push_cast at this
          linarith
        have hx : ((c1 : ℝ) * s + s / 2 - ((c2 : ℝ) * s + 0)) ^ 2 =
            (2 * ((c1 : ℝ) - c2) + 1) ^ 2 * (s / 2) ^ 2 := by ring
        nlinarith [sq_nonneg s, hs.le]

lemma hexCandidates_eq (center : Pt) (radius es p : ℝ) :
    hexCandidates center radius es p =
      (intRange (⌊2 * radius / ((es + p) * 0.866)⌋ + 1)).flatMap (fun row =>
        (intRange (⌊2 * radius / (es + p)⌋ + 1)).filterMap (fun col =>
          if npNorm ((center + hexPoint (es + p) ((es + p) * 0.866) row col) - center) ≤ radius
          then some
            (npNorm ((center + hexPoint (es + p) ((es + p) * 0.866) row col) - center),
              center + hexPoint (es + p) ((es + p) * 0.866) row col)
          else none)) := rfl

lemma ellipseCandidates_eq (center : Pt) (width height es p : ℝ) :
    ellipseCandidates center width height es p =
      (intRange (⌊height / ((es + p) * 0.866)⌋ + 2)).flatMap (fun row =>
        (intRange (⌊width / (es + p)⌋ + 2)).filterMap (fun col =>
          if (if 0 < width then
                2 * (hexPoint (es + p) ((es + p) * 0.866) row col).1 / width else 0) ^ 2 +
             (if 0 < height then
                2 * (hexPoint (es + p) ((es + p) * 0.866) row col).2 / height else 0) ^ 2 ≤ 1
          then some
            (npNorm ((center + hexPoint (es + p) ((es + p) * 0.866) row col) - center),
              center + hexPoint (es + p) ((es + p) * 0.866) row col)
          else none)) := rfl

lemma if_some_eq_cond {β : Type} {C : Prop} [Decidable C] {x dq : β}
    (h : (if C then some x else none) = some dq) : dq = x ∧ C := by
  by_cases hc : C
  · rw [if_pos hc] at h
    exact ⟨(Option.some.inj h).symm, hc⟩
  · rw [if_neg hc] at h
    exact absurd h (by simp)

lemma flatMap_filterMap_pairwise (rows cols : List ℤ) (hrows : rows.Nodup)
    (hcols : cols.Nodup) (f : ℤ → ℤ → Option (ℝ × Pt)) (pt : ℤ → ℤ → Pt)
    (hf : ∀ r c dq, f r c = some dq → dq.2 = pt r c) (D : ℝ)
    (hD : ∀ r1 c1 r2 c2, ¬(r1 = r2 ∧ c1 = c2) → D ≤ npNorm (pt r1 c1 - pt r2 c2)) :
    (rows.flatMap fun r => cols.filterMap (f r)).Pairwise
      (fun a b => D ≤ npNorm (a.2 - b.2)) := by
  rw [List.pairwise_flatMap]
  constructor
  · intro r _
    rw [List.pairwise_filterMap]
    refine List.Pairwise.imp ?_ hcols
    intro c c' hcc b hb b' hb'
    rw [hf r c b hb, hf r c' b' hb']
    exact hD r c r c' (fun hand => hcc hand.2)
  · refine List.Pairwise.imp ?_ hrows
    intro r r' hrr x hx y hy
    obtain ⟨c, _, hc⟩ := List.mem_filterMap.mp hx
    obtain ⟨c', _, hc'⟩ := List.mem_filterMap.mp hy
    rw [hf r c x hc, hf r' c' y hc']
    exact hD r c r' c' (fun hand => hrr hand.1)

lemma hexCandidates_pairwise (center : Pt) (radius es p : ℝ) (hs : 0 < es + p) :
    (hexCandidates center radius es p).Pairwise
      (fun a b => 0.999 * (es + p) ≤ npNorm (a.2 - b.2)) := by
  rw [hexCandidates_eq]
  apply flatMap_filterMap_pairwise _ _ (intRange_nodup _) (intRange_nodup _) _
    (fun row col => center + hexPoint (es + p) ((es + p) * 0.866) row col)
  · intro r c dq hdq
    rw [(if_some_eq_cond hdq).1]
  · intro r1 c1 r2 c2 hne
    rw [add_sub_add_left_eq_sub]
    exact hexPoint_dist_ge (es + p) hs r1 c1 r2 c2 hne

lemma ellipseCandidates_pairwise (center : Pt) (width height es p : ℝ) (hs : 0 < es + p) :
    (ellipseCandidates center width height es p).Pairwise
      (fun a b => 0.999 * (es + p) ≤ npNorm (a.2 - b.2)) := by
  rw [ellipseCandidates_eq]
  apply flatMap_filterMap_pairwise _ _ (intRange_nodup _) (intRange_nodup _) _
    (fun row col => center + hexPoint (es + p) ((es + p) * 0.866) row col)
  · intro r c dq hdq
    rw [(if_some_eq_cond hdq).1]
  · intro r1 c1 r2 c2 hne
    rw [add_sub_add_left_eq_sub]
    exact hexPoint_dist_ge (es + p) hs r1 c1 r2 c2 hne

lemma hexCandidates_mem_bound (center : Pt) (radius es p : ℝ) :
    ∀ dq ∈ hexCandidates center radius es p, npNorm (dq.2 - center) ≤ radius := by
  intro dq hdq
  rw [hexCandidates_eq, List.mem_flatMap] at hdq
  obtain ⟨row, _, hmem⟩ := hdq
  rw [List.mem_filterMap] at hmem
  obtain ⟨col, _, hcol⟩ := hmem
  obtain ⟨hdq2, hcond⟩ := if_some_eq_cond hcol
  rw [hdq2]
  exact hcond

lemma ellipseCandidates_mem_bound (center : Pt) (width height es p : ℝ) (hw : 0 < width)
    (hh : 0 < height) :
    ∀ dq ∈ ellipseCandidates center width height es p,
      (2 * (dq.2.1 - center.1) / width) ^ 2 + (2 * (dq.2.2 - center.2) / height) ^ 2 ≤ 1 := by
  intro dq hdq
  rw [ellipseCandidates_eq, List.mem_flatMap] at hdq
  obtain ⟨row, _, hmem⟩ := hdq
  rw [List.mem_filterMap] at hmem
  obtain ⟨col, _, hcol⟩ := hmem
  rw [if_pos hw, if_pos hh] at hcol
  obtain ⟨hdq2, hcond⟩ := if_some_eq_cond hcol
  rw [hdq2]
  simp only [Prod.fst_add, Prod.snd_add]
  have e1 : center.1 + (hexPoint (es + p) ((es + p) * 0.866) row col).1 - center.1 =
      (hexPoint (es + p) ((es + p) * 0.866) row col).1 := by ring
  have e2 : center.2 + (hexPoint (es + p) ((es + p) * 0.866) row col).2 - center.2 =
      (hexPoint (es + p) ((es + p) * 0.866) row col).2 := by ring
  rw [e1, e2]
  exact hcond

lemma sortByDist_perm (l : List (ℝ × Pt)) : List.Perm (sortByDist l) l :=
  List.perm_insertionSort _ l

lemma packed_map_snd (els : List α) (cands : List (ℝ × Pt)) (c : Pt)
    (hlen : els.length ≤ cands.length) :
    (assign els ((sortByDist cands).map Prod.snd) c).map Prod.snd
      = ((sortByDist cands).map Prod.snd).take els.length := by
  apply assign_map_snd_of_le
  rw [List.length_map, (sortByDist_perm cands).length_eq]
  exact hlen

lemma packed_pairwise (els : List α) (cands : List (ℝ × Pt)) (c : Pt) (D : ℝ)
    (hlen : els.length ≤ cands.length) (hD : 0 < D)
    (hpw : cands.Pairwise (fun a b => D ≤ npNorm (a.2 - b.2))) :
    ((assign els ((sortByDist cands).map Prod.snd) c).map Prod.snd).Pairwise
      (fun q q' => q ≠ q' ∧ D ≤ npNorm (q - q')) := by
  rw [packed_map_snd els cands c hlen]
  apply List.Pairwise.sublist (List.take_sublist _ _)
  rw [List.pairwise_map]
  have hsym : ∀ {x y : ℝ × Pt}, (D ≤ npNorm (x.2 - y.2)) → D ≤ npNorm (y.2 - x.2) := by
    intro x y hxy
    rwa [npNorm_sub_comm]
  have hsorted : (sortByDist cands).Pairwise (fun a b => D ≤ npNorm (a.2 - b.2)) :=
    ((sortByDist_perm cands).pairwise_iff hsym).mpr hpw
  refine hsorted.imp ?_
  intro a b hab
  refine ⟨fun heq => ?_, hab⟩
  rw [heq, npNorm_zero_self] at hab
  linarith

lemma packed_mem (els : List α) (cands : List (ℝ × Pt)) (c : Pt)
    (hlen : els.length ≤ cands.length) (q : Pt)
    (hq : q ∈ (assign els ((sortByDist cands).map Prod.snd) c).map Prod.snd) :
    ∃ dq ∈ cands, dq.2 = q := by
  rw [packed_map_snd els cands c hlen] at hq
  have hq2 := List.take_subset _ _ hq
  obtain ⟨dq, hdq, hsnd⟩ := List.mem_map.mp hq2
  exact ⟨dq, (sortByDist_perm cands).mem_iff.mp hdq, hsnd⟩

/-- C6: when a region's element count is at most its candidate-lattice size,
the packers assign every element a position (`map fst` is the element list),
all assigned positions are pairwise distinct and at least
`elemSize + padding − ε` apart (with `ε = 0.001·(elemSize + padding)`, absorbing
the `0.866 ≈ √3/2` lattice approximation), and every assigned position lies
inside or on the boundary (circle for `_hexagonal_pack`, ellipse for
`_elliptical_pack`). -/
theorem C6_packing_completeness (els1 els2 : List α) (c1 c2 : Pt)
    (r w h es1 p1 es2 p2 : ℝ) (hes1 : 0 < es1) (hp1 : 0 ≤ p1)
    (hlen1 : els1.length ≤ (hexCandidates c1 r es1 p1).length)
    (hes2 : 0 < es2) (hp2 : 0 ≤ p2) (hw : 0 < w) (hh : 0 < h)
    (hlen2 : els2.length ≤ (ellipseCandidates c2 w h es2 p2).length) :
    ((hexagonal_pack els1 c1 r es1 p1).map Prod.fst = els1 ∧
     ((hexagonal_pack els1 c1 r es1 p1).map Prod.snd).Pairwise
       (fun q q' => q ≠ q' ∧ 0.999 * (es1 + p1) ≤ npNorm (q - q')) ∧
     ∀ q ∈ (hexagonal_pack els1 c1 r es1 p1).map Prod.snd, npNorm (q - c1) ≤ r) ∧
    ((elliptical_pack els2 c2 w h es2 p2).map Prod.fst = els2 ∧
     ((elliptical_pack els2 c2 w h es2 p2).map Prod.snd).Pairwise
       (fun q q' => q ≠ q' ∧ 0.999 * (es2 + p2) ≤ npNorm (q - q')) ∧
     ∀ q ∈ (elliptical_pack els2 c2 w h es2 p2).map Prod.snd,
       (2 * (q.1 - c2.1) / w) ^ 2 + (2 * (q.2 - c2.2) / h) ^ 2 ≤ 1) := by
  have hs1 : 0 < es1 + p1 := by linarith
  have hs2 : 0 < es2 + p2 := by linarith
  refine ⟨⟨hexagonal_pack_map_fst .., ?_, ?_⟩, ⟨elliptical_pack_map_fst .., ?_, ?_⟩⟩
  · exact packed_pairwise els1 _ c1 _ hlen1 (by positivity)
      (hexCandidates_pairwise c1 r es1 p1 hs1)
  · intro q hq
    obtain ⟨dq, hdq, hsnd⟩ := packed_mem els1 _ c1 hlen1 q hq
    rw [← hsnd]
    exact hexCandidates_mem_bound c1 r es1 p1 dq hdq
  · exact packed_pairwise els2 _ c2 _ hlen2 (by positivity)
      (ellipseCandidates_pairwise c2 w h es2 p2 hs2)
  · intro q hq
    obtain ⟨dq, hdq, hsnd⟩ := packed_mem els2 _ c2 hlen2 q hq
    rw [← hsnd]
    exact ellipseCandidates_mem_bound c2 w h es2 p2 hw hh dq hdq

lemma hexCandidates_len_witness : 1 ≤ (hexCandidates ((0 : ℝ), (0 : ℝ)) 1 1 1).length := by
  have hmem : ((0 : ℝ), ((0 : ℝ), (0 : ℝ))) ∈ hexCandidates ((0 : ℝ), (0 : ℝ)) 1 1 1 := by
    rw [hexCandidates_eq, List.mem_flatMap]
    have hrows : (0 : ℤ) ≤ ⌊(2 * 1 / (((1 : ℝ) + 1) * 0.866))⌋ + 1 := by
      have := Int.floor_nonneg.mpr (show (0 : ℝ) ≤ 2 * 1 / (((1 : ℝ) + 1) * 0.866) by positivity)
      omega
    have hcols : (0 : ℤ) ≤ ⌊(2 * 1 / ((1 : ℝ) + 1))⌋ + 1 := by
      have := Int.floor_nonneg.mpr (show (0 : ℝ) ≤ 2 * 1 / ((1 : ℝ) + 1) by positivity)
      omega
    refine ⟨0, intRange_mem_zero _ hrows, ?_⟩
    rw [List.mem_filterMap]
    refine ⟨0, intRange_mem_zero _ hcols, ?_⟩
    norm_num [hexPoint, npNorm, Prod.ext_iff]
  exact List.length_pos.mpr (List.ne_nil_of_mem hmem)

lemma ellipseCandidates_len_witness :
    1 ≤ (ellipseCandidates ((0 : ℝ), (0 : ℝ)) 1 1 1 1).length := by
  have hmem : ((0 : ℝ), ((0 : ℝ), (0 : ℝ))) ∈ ellipseCandidates ((0 : ℝ), (0 : ℝ)) 1 1 1 1 := by
    rw [ellipseCandidates_eq, List.mem_flatMap]
    have hrows : (0 : ℤ) ≤ ⌊((1 : ℝ) / (((1 : ℝ) + 1) * 0.866))⌋ + 2 := by
      have := Int.floor_nonneg.mpr (show (0 : ℝ) ≤ 1 / (((1 : ℝ) + 1) * 0.866) by positivity)
      omega
    have hcols : (0 : ℤ) ≤ ⌊((1 : ℝ) / ((1 : ℝ) + 1))⌋ + 2 := by
      have := Int.floor_nonneg.mpr (show (0 : ℝ) ≤ 1 / ((1 : ℝ) + 1) by positivity)
      omega
    refine ⟨0, intRange_mem_zero _ hrows, ?_⟩
    rw [List.mem_filterMap]
    refine ⟨0, intRange_mem_zero _ hcols, ?_⟩
    norm_num [hexPoint, npNorm, Prod.ext_iff]
  exact List.length_pos.mpr (List.ne_nil_of_mem hmem)

/-- Witness for `C6_packing_completeness`: one element packed into the unit
circle and into the unit ellipse. -/
theorem C6_packing_completeness_witness :
    (hexagonal_pack [0] ((0 : ℝ), (0 : ℝ)) 1 1 1).map Prod.fst = [0] ∧
    (elliptical_pack [0] ((0 : ℝ), (0 : ℝ)) 1 1 1 1).map Prod.fst = [0] ∧
    ∀ q ∈ (hexagonal_pack ([0] : List ℕ) ((0 : ℝ), (0 : ℝ)) 1 1 1).map Prod.snd,
      npNorm (q - ((0 : ℝ), (0 : ℝ))) ≤ 1 := by
  have h := C6_packing_completeness ([0] : List ℕ) [0] ((0 : ℝ), (0 : ℝ)) ((0 : ℝ), (0 : ℝ))
    1 1 1 1 1 1 1 one_pos (by norm_num) (by simpa using hexCandidates_len_witness)
    one_pos (by norm_num) one_pos one_pos (by simpa using ellipseCandidates_len_witness)
  exact ⟨h.1.1, h.2.1, h.1.2.2⟩

end VennSpatialCalculator

end
